import Mathlib

/-!
Verification of the benchmark orchestration harnesses of this repository
(`src/run.py`, the two-way C-vs-Rust harness, and `src/runOptDiff.py`, the
three-way optimization-diff harness) against their natural-language
specification.

The Python code is shallowly embedded:

* the filesystem is a map from paths to file contents plus a set of
  directories (`FS`);
* the process environment (`os.environ`) is a map from variable names to
  values;
* every external process invocation (`subprocess.run` with `check=True`) is an
  oracle value of type `ProcOutcome`: either it completes with exit status 0
  (carrying its captured stdout/stderr), or it raises a Python exception —
  `CalledProcessError` for a non-zero exit status, `OSError` for a launch
  failure (missing binary, permission error, unopenable input);
* Python floats (wall-clock times) are modelled as rationals; the fixed-point
  format `{x:.kf}` persists the value of `x` rounded to `k` decimal places;
* fallible Python code is embedded in `Except Exc`, where `.error e` means the
  exception `e` propagates out of the modelled function;
* each per-unit orchestration run additionally produces a trace of the
  expensive external effects it performed (`Event`: compiling a variant,
  measuring a variant, appending a ledger row).
-/

/-- The Python exception classes distinguished by the two harnesses:
`subprocess.CalledProcessError` (non-zero exit status of a checked
`subprocess.run`) and `OSError` (launch failure: missing binary, permission
error, unopenable input file — `FileNotFoundError` and `PermissionError` are
subclasses of `OSError`). -/
inductive Exc where
  | calledProcessError
  | osError
deriving DecidableEq

/-- Outcome of one external process invocation (`subprocess.run` with
`check=True`): either exit status 0 with captured output, or a raised
exception. -/
inductive ProcOutcome where
  | ok (stdout stderr : String)
  | raise (e : Exc)
deriving DecidableEq

/-- The expensive external effects performed while orchestrating one benchmark
unit: compiling a variant, measuring (running) a variant, appending a row to
the ledger file. -/
inductive Event where
  | compile (variant : String)
  | measure (variant : String)
  | append (name : String)
deriving DecidableEq

/-- Filesystem model: file contents by path, plus directory existence
(`os.path.exists` on a directory). -/
structure FS where
  files : String → Option String
  dirs : String → Bool

/-- `pathlib.Path(p).read_text()` — `none` models the file being absent, in
which case the Python call raises `FileNotFoundError` (an `OSError`). -/
def FS.read? (fs : FS) (p : String) : Option String := fs.files p

/-- `os.path.exists(p)` for a regular file path. -/
def FS.fileExists (fs : FS) (p : String) : Bool := (fs.files p).isSome

/-- `os.path.exists(p)` for a directory path. -/
def FS.dirExists (fs : FS) (p : String) : Bool := fs.dirs p

/-- `open(p, "w")` followed by a full write: create or truncate. -/
def FS.write (fs : FS) (p c : String) : FS :=
  ⟨fun q => if q = p then some c else fs.files q, fs.dirs⟩

/-- `open(p, "a")` followed by a write: append, creating the file if absent. -/
def FS.append (fs : FS) (p c : String) : FS :=
  match fs.files p with
  | none => fs.write p c
  | some old => fs.write p (old ++ c)

/-- `os.remove(p)`. -/
def FS.remove (fs : FS) (p : String) : FS :=
  ⟨fun q => if q = p then none else fs.files q, fs.dirs⟩

/-- Process state for `run.py`: the filesystem together with `os.environ`. -/
structure PState where
  fs : FS
  env : String → Option String

/-- `os.environ[k] = v`. -/
def envSet (env : String → Option String) (k v : String) : String → Option String :=
  fun q => if q = k then some v else env q

/-! ### List-of-characters string utilities

Text processing is modelled on `List Char` so that every operation is a
structurally recursive, kernel-evaluable function. -/

/-- Split a character list at every occurrence of `sep` (the pieces do not
contain `sep`); models splitting a file into lines at newlines, a path at
slashes, a file name at dots. Always returns at least one piece. -/
def splitOnChar (sep : Char) : List Char → List (List Char)
  | [] => [[]]
  | c :: r =>
    let rest := splitOnChar sep r
    if c = sep then [] :: rest
    else (c :: rest.headD []) :: rest.tail

/-- `os.path.basename`: the component after the last slash. -/
def lastComponentL (p : List Char) : List Char := (splitOnChar '/' p).getLastD []

/-- Re-join dot-separated name parts. -/
def joinWithDot : List (List Char) → List Char
  | [] => []
  | [g] => g
  | g :: gs => g ++ '.' :: joinWithDot gs

/-- `os.path.splitext(...)[0]`: drop the last dot-extension when there is
one. -/
def stripExtL (f : List Char) : List Char :=
  let parts := splitOnChar '.' f
  if parts.length ≤ 1 then f else joinWithDot parts.dropLast

/-- `os.path.splitext(os.path.basename(p))[0]`, the benchmark unit's base
name (`run.py` line 86, `runOptDiff.py` line 82). -/
def baseNameOf (p : String) : String := String.mk (stripExtL (lastComponentL p.toList))

/-- Python `str.split()` whitespace (the ASCII part): space, tab, newline,
carriage return, vertical tab, form feed. -/
def isSpaceChar (c : Char) : Bool :=
  c = ' ' || c = '\t' || c = '\n' || c = '\r' || c = '\x0b' || c = '\x0c'

/-- Number of maximal runs of non-whitespace characters; the flag records
whether the previous character was inside such a run. -/
def tokenCountAux : List Char → Bool → Nat
  | [], _ => 0
  | c :: r, inTok =>
    if isSpaceChar c then tokenCountAux r false
    else (if inTok then 0 else 1) + tokenCountAux r true

/-- `len(input_data.strip().split())` — the token count of the input dataset
(`run.py` line 107, `runOptDiff.py` line 94); stripping does not change the
number of whitespace-delimited tokens. -/
def tokenCount (s : String) : Nat := tokenCountAux s.toList false

/-! ### Python `str.replace` -/

/-- Fuel-indexed worker for `replaceAll`; structural recursion on the fuel
keeps the function kernel-evaluable. Whenever `s.length ≤ fuel` the fuel never
runs out (each step consumes at least one character of `s`). -/
def replaceAllAux (pat rep : List Char) : Nat → List Char → List Char
  | _, [] => []
  | 0, l => l
  | fuel + 1, c :: s =>
    if 0 < pat.length ∧ pat.isPrefixOf (c :: s) = true then
      rep ++ replaceAllAux pat rep fuel (List.drop (pat.length - 1) s)
    else
      c :: replaceAllAux pat rep fuel s

/-- Python `str.replace(pat, rep)` for a non-empty `pat`: replace every
non-overlapping occurrence, scanning left to right (on an empty `pat` this
model returns the string unchanged; the harness only uses the non-empty
pattern `"int n = 97;"`). -/
def replaceAll (pat rep s : List Char) : List Char := replaceAllAux pat rep s.length s

/-- Python `pat in s` (substring test): some position of `s` starts with
`pat`. -/
def containsSub (pat : List Char) : List Char → Bool
  | [] => pat.isEmpty
  | c :: s => pat.isPrefixOf (c :: s) || containsSub pat s

/-- Locate the first occurrence of `pat`: returns the part strictly before the
first occurrence and the part strictly after it. -/
def firstSplit (pat : List Char) : List Char → Option (List Char × List Char)
  | [] => if pat.isEmpty then some ([], []) else none
  | c :: s =>
    if pat.isPrefixOf (c :: s) = true then some ([], List.drop pat.length (c :: s))
    else (firstSplit pat s).map fun pq => (c :: pq.1, pq.2)

/-- The recognized size-literal statement (`run.py` line 112, `runOptDiff.py`
line 99). -/
def sizeLit : List Char := "int n = 97;".toList

/-- The statement the size literal is rewritten to for an input of `L`
tokens. -/
def sizeStmt (L : Nat) : List Char := ("int n = " ++ toString L ++ ";").toList

/-- `c_source.replace("int n = 97;", f"int n = \x7blen(input_data_list)\x7d;")`
(`run.py` line 112, `runOptDiff.py` line 99). -/
def parameterizeSource (src : List Char) (L : Nat) : List Char :=
  replaceAll sizeLit (sizeStmt L) src

/-! ### The perf-output parser of `runOptDiff.py` (lines 52-58)

The two patterns `(\d+\.\d+) seconds time elapsed` and
`(\d+,\d+|\d+)\s+cycles` are embedded as explicit leftmost-match scanners.
Because in each pattern every quantified piece is followed by a character that
cannot extend it (a digit run by a non-digit, a whitespace run by `c`),
backtracking to a shorter quantified match can never succeed, so the greedy
deterministic scan below is exactly Python's `re.search` on these two
patterns. -/

/-- Maximal digit prefix and the rest. -/
def takeDigits (l : List Char) : List Char × List Char :=
  (l.takeWhile Char.isDigit, l.dropWhile Char.isDigit)

/-- Maximal `\s` prefix and the rest. -/
def takeSpaces (l : List Char) : List Char × List Char :=
  (l.takeWhile isSpaceChar, l.dropWhile isSpaceChar)

/-- Try to match `(\d+,\d+|\d+)\s+cycles` at the head of `s`, returning
group 1: first the alternative `\d+,\d+`, then (as Python's alternation does
on its failure) the alternative `\d+`. -/
def matchCyclesAt (s : List Char) : Option (List Char) :=
  let d1r := takeDigits s
  if d1r.1.isEmpty then none else
  let tryTail : List Char → List Char → Option (List Char) := fun g rest =>
    let wret := takeSpaces rest
    if wret.1.isEmpty then none
    else if ("cycles".toList).isPrefixOf wret.2 then some g else none
  let alt1 : Option (List Char) :=
    match d1r.2 with
    | ',' :: r2 =>
      let d2r := takeDigits r2
      if d2r.1.isEmpty then none
      else tryTail (d1r.1 ++ ',' :: d2r.1) d2r.2
    | _ => none
  match alt1 with
  | some g => some g
  | none => tryTail d1r.1 d1r.2

/-- `re.search(r'(\d+,\d+|\d+)\s+cycles', s)`: leftmost position where the
pattern matches, returning group 1. -/
def searchCycles : List Char → Option (List Char)
  | [] => none
  | c :: rest =>
    match matchCyclesAt (c :: rest) with
    | some g => some g
    | none => searchCycles rest

/-- Try to match `(\d+\.\d+) seconds time elapsed` at the head of `s`,
returning the integer and fractional digit lists of group 1. -/
def matchTimeAt (s : List Char) : Option (List Char × List Char) :=
  let d1r := takeDigits s
  if d1r.1.isEmpty then none else
  match d1r.2 with
  | '.' :: r2 =>
    let d2r := takeDigits r2
    if d2r.1.isEmpty then none
    else if (" seconds time elapsed".toList).isPrefixOf d2r.2 then some (d1r.1, d2r.1)
    else none
  | _ => none

/-- `re.search(r'(\d+\.\d+) seconds time elapsed', s)`. -/
def searchTime : List Char → Option (List Char × List Char)
  | [] => none
  | c :: rest =>
    match matchTimeAt (c :: rest) with
    | some g => some g
    | none => searchTime rest

/-- Numeric value of a digit list (Python `int` on a digit string). -/
def digitsToNat (l : List Char) : Nat :=
  l.foldl (fun acc c => 10 * acc + (c.toNat - Char.toNat '0')) 0

/-- Numeric value of `float("<d1>.<d2>")` as a rational. -/
def decimalToRat (d1 d2 : List Char) : ℚ :=
  (digitsToNat d1 : ℚ) + (digitsToNat d2 : ℚ) / (10 : ℚ) ^ d2.length

/-- Lines 52-58 of `runOptDiff.py`: extract the elapsed time and the cycle
count from the captured `perf stat` stderr; commas (thousands separators) are
removed from the matched cycle group before `int` conversion. Returns `none`
when either pattern fails to match. -/
def parsePerfStderr (stderr : List Char) : Option (ℚ × Nat) :=
  match searchTime stderr, searchCycles stderr with
  | some d12, some g =>
      some (decimalToRat d12.1 d12.2, digitsToNat (g.filter fun c => c ≠ ','))
  | _, _ => none

/-! ### Fixed-point formatting and the ledger -/

/-- The rational value persisted by Python's fixed-point format `{q:.df}`:
`q` rounded to `d` decimal places. -/
def roundTo (d : Nat) (q : ℚ) : ℚ := (round (q * (10 : ℚ) ^ d) : ℤ) / (10 : ℚ) ^ d

/-- Left-pad a digit list with zeros to width `d`. -/
def padZeros (d : Nat) (s : List Char) : List Char :=
  List.replicate (d - s.length) '0' ++ s

/-- Decimal rendering of `{q:.df}`: the rounded value printed with exactly `d`
fractional digits. -/
def fmtFixed (d : Nat) (q : ℚ) : String :=
  let n : ℤ := round (q * (10 : ℚ) ^ d)
  let m := n.natAbs
  (if n < 0 then "-" else "") ++ toString (m / 10 ^ d) ++ "." ++
    String.mk (padZeros d (toString (m % 10 ^ d)).toList)

/-- Header written by `write_results` in `run.py` (line 79). -/
def headerA : String := "algorithm,c_time,rust_time,speedup\n"

/-- The row string of `write_results` in `run.py` (line 83):
`f"\x7bbase_name\x7d,\x7bc_time:.3f\x7d,\x7brust_time:.3f\x7d,\x7bspeedup:.2f\x7d\n"`. -/
def rowA (base : String) (cT rT : ℚ) : String :=
  base ++ "," ++ fmtFixed 3 cT ++ "," ++ fmtFixed 3 rT ++ "," ++ fmtFixed 2 (cT / rT) ++ "\n"

/-- The numeric content of that row: the persisted algorithm name, the two
persisted times (each the measured value rounded to 3 decimal places, from
`:.3f`) and the persisted speedup (the ratio rounded to 2 decimal places, from
`:.2f`). -/
def writeResultsFields (base : String) (cT rT : ℚ) : String × ℚ × ℚ × ℚ :=
  (base, roundTo 3 cT, roundTo 3 rT, roundTo 2 (cT / rT))

/-- `write_results` of `run.py` (lines 71-83): write the header if the ledger
file does not exist yet, then append one row. -/
def write_results (fs : FS) (resultsFile base : String) (cT rT : ℚ) : FS :=
  let fs1 := if fs.fileExists resultsFile then fs else fs.write resultsFile headerA
  fs1.append resultsFile (rowA base cT rT)

/-- Header written by `write_results` in `runOptDiff.py` (line 76). -/
def headerB : String :=
  "algorithm,clang_o2_time,clang_o2_cycles,clang_o3_time,clang_o3_cycles,llvm_pipeline_time,llvm_pipeline_cycles\n"

/-- The row string of `write_results` in `runOptDiff.py` (line 79). -/
def rowB (base : String) (t2 : ℚ) (c2 : Nat) (t3 : ℚ) (c3 : Nat) (tl : ℚ) (cl : Nat) : String :=
  base ++ "," ++ fmtFixed 3 t2 ++ "," ++ toString c2 ++ "," ++ fmtFixed 3 t3 ++ "," ++
    toString c3 ++ "," ++ fmtFixed 3 tl ++ "," ++ toString cl ++ "\n"

/-- `write_results` of `runOptDiff.py` (lines 68-79). -/
def write_results_opt (fs : FS) (resultsFile base : String)
    (t2 : ℚ) (c2 : Nat) (t3 : ℚ) (c3 : Nat) (tl : ℚ) (cl : Nat) : FS :=
  let fs1 := if fs.fileExists resultsFile then fs else fs.write resultsFile headerB
  fs1.append resultsFile (rowB base t2 c2 t3 c3 tl cl)

/-- The ledger pre-check of both harnesses (`run.py` lines 91-93,
`runOptDiff.py` lines 85-87): the ledger file exists and some line of it
starts with `name` followed by a comma. -/
def alreadyEvaluated (fs : FS) (resultsFile name : String) : Bool :=
  match fs.read? resultsFile with
  | none => false
  | some content =>
      (splitOnChar '\n' content.toList).any fun line =>
        (name.toList ++ [',']).isPrefixOf line

/-! ### Toolchain adapters -/

/-- `compile_c_source` of `run.py` (lines 16-22): pipe `src` to gcc's stdin
with `check=True`; a `CalledProcessError` (non-zero compiler exit) is caught
and reported as `false`, any other exception (e.g. gcc missing) propagates. -/
def compile_c_source (_src : String) (o : ProcOutcome) : Except Exc Bool :=
  match o with
  | .ok _ _ => .ok true
  | .raise .calledProcessError => .ok false
  | .raise e => .error e

/-- The `RUSTFLAGS` value set by `compile_rust` (`run.py` line 25). -/
def rustflagsStr (optLevel : Nat) : String :=
  "-A warnings -C opt-level=" ++ toString optLevel

/-- `compile_rust` of `run.py` (lines 24-36): first mutate the process-wide
environment (`os.environ["RUSTFLAGS"] = flags`, line 26, outside the `try`),
then invoke `rustc` when the single-file source exists, else `cargo build`
(both with `check=True`, both failure modes handled identically, so one
outcome oracle covers whichever command runs). The updated environment is
returned in every case, including a raised exception. -/
def compile_rust (env : String → Option String) (_rustFileExists : Bool)
    (o : ProcOutcome) (optLevel : Nat) : (String → Option String) × Except Exc Bool :=
  let env' := envSet env "RUSTFLAGS" (rustflagsStr optLevel)
  (env',
    match o with
    | .ok _ _ => .ok true
    | .raise .calledProcessError => .ok false
    | .raise e => .error e)

/-- `compile_with_clang` of `runOptDiff.py` (lines 16-22). -/
def compile_with_clang (o : ProcOutcome) : Except Exc Bool :=
  match o with
  | .ok _ _ => .ok true
  | .raise .calledProcessError => .ok false
  | .raise e => .error e

/-- `compile_with_llvm_opt` of `runOptDiff.py` (lines 24-41): emit LLVM IR,
run `opt-18`, compile the optimized IR — three checked invocations inside one
`try` whose handler catches only `CalledProcessError`. -/
def compile_with_llvm_opt (o1 o2 o3 : ProcOutcome) : Except Exc Bool :=
  match o1 with
  | .raise .calledProcessError => .ok false
  | .raise e => .error e
  | .ok _ _ =>
    match o2 with
    | .raise .calledProcessError => .ok false
    | .raise e => .error e
    | .ok _ _ =>
      match o3 with
      | .raise .calledProcessError => .ok false
      | .raise e => .error e
      | .ok _ _ => .ok true

/-! ### Measurement strategies -/

/-- The body of the `try` in `run_c_benchmark` (`run.py` lines 39-45): open
the input, launch the artifact, take the two timestamps. `elapsed` is the
oracle for `time.time() - start_time`. -/
def measureBodyWall (o : ProcOutcome) (elapsed : ℚ) : Except Exc ℚ :=
  match o with
  | .raise e => .error e
  | .ok _ _ => .ok elapsed

/-- `run_c_benchmark` of `run.py` (lines 38-48): the bare `except:` catches
every exception raised in the body and reports a failed measurement
(`None`). The `Except` codomain exhibits that no exception escapes this
boundary. -/
def run_c_benchmark (o : ProcOutcome) (elapsed : ℚ) : Except Exc (Option ℚ) :=
  match measureBodyWall o elapsed with
  | .ok t => .ok (some t)
  | .error _ => .ok none

/-- `run_rust_benchmark` of `run.py` (lines 50-69): same shape as
`run_c_benchmark` (the single-file and `cargo run` branches are handled
identically, so one outcome oracle covers whichever command runs). -/
def run_rust_benchmark (o : ProcOutcome) (elapsed : ℚ) : Except Exc (Option ℚ) :=
  match measureBodyWall o elapsed with
  | .ok t => .ok (some t)
  | .error _ => .ok none

/-- The body of the `try` in `run_benchmark_with_perf` (`runOptDiff.py` lines
44-63): `open(input_data_file)` raises `OSError` when the input cannot be
opened (`inputOpenOk = false`); the checked `perf stat` invocation may raise;
on success the captured stderr is parsed, an unparseable stream yielding the
normal return `(None, None)`. -/
def perfBody (inputOpenOk : Bool) (o : ProcOutcome) : Except Exc (Option (ℚ × Nat)) :=
  if inputOpenOk = false then .error .osError
  else
    match o with
    | .raise e => .error e
    | .ok _ stderr => .ok (parsePerfStderr stderr.toList)

/-- `run_benchmark_with_perf` of `runOptDiff.py` (lines 43-66): the handler
catches only `subprocess.CalledProcessError`; every other exception (in
particular any `OSError` from a launch failure or unopenable input)
propagates past this boundary. -/
def run_benchmark_with_perf (inputOpenOk : Bool) (o : ProcOutcome) :
    Except Exc (Option (ℚ × Nat)) :=
  match perfBody inputOpenOk o with
  | .error .calledProcessError => .ok none
  | .error e => .error e
  | .ok v => .ok v

/-! ### The per-unit orchestrators -/

/-- One benchmark unit of `run.py` together with the outcome oracles of the
external invocations it may perform. -/
structure CJob where
  d : String
  cFile : String
  inputFile : String
  optLevel : Nat
  resultsFile : String
  gcc : ProcOutcome
  rustc : ProcOutcome
  cRun : ProcOutcome
  cElapsed : ℚ
  rRun : ProcOutcome
  rElapsed : ℚ

/-- `f"\x7bd\x7d/Rust/\x7bbase_name\x7d.rs"` (`run.py` line 87). -/
def rustFilePath (d base : String) : String := d ++ "/Rust/" ++ base ++ ".rs"

/-- `f"\x7bd\x7d/Rust/\x7bbase_name\x7d"` (`run.py` line 88). -/
def rustDirPath (d base : String) : String := d ++ "/Rust/" ++ base

/-- `run_benchmark` of `run.py` (lines 85-128), step by step: ledger
pre-check; comparison-existence check; read the input dataset (raises
`OSError` when absent); read and parameterize the reference source; compile C;
compile Rust; measure C; measure Rust; append the result row. Returns the
final state (or the propagating exception) and the trace of expensive
effects. -/
def run_benchmark_run (j : CJob) (st : PState) : Except Exc PState × List Event :=
  let base := baseNameOf j.cFile
  if alreadyEvaluated st.fs j.resultsFile base then (.ok st, [])
  else if (st.fs.fileExists (rustFilePath j.d base) || st.fs.dirExists (rustDirPath j.d base)) = false then
    (.ok st, [])
  else
    match st.fs.read? j.inputFile with
    | none => (.error .osError, [])
    | some inputData =>
      let L := tokenCount inputData
      match st.fs.read? j.cFile with
      | none => (.error .osError, [])
      | some cSrc =>
        let cSrc' := String.mk (parameterizeSource cSrc.toList L)
        match compile_c_source cSrc' j.gcc with
        | .error e => (.error e, [.compile "C"])
        | .ok false => (.ok st, [.compile "C"])
        | .ok true =>
          let envRes := compile_rust st.env (st.fs.fileExists (rustFilePath j.d base)) j.rustc j.optLevel
          let st1 : PState := ⟨st.fs, envRes.1⟩
          match envRes.2 with
          | .error e => (.error e, [.compile "C", .compile "Rust"])
          | .ok false => (.ok st1, [.compile "C", .compile "Rust"])
          | .ok true =>
            match run_c_benchmark j.cRun j.cElapsed with
            | .error e => (.error e, [.compile "C", .compile "Rust", .measure "C"])
            | .ok none => (.ok st1, [.compile "C", .compile "Rust", .measure "C"])
            | .ok (some cT) =>
              match run_rust_benchmark j.rRun j.rElapsed with
              | .error e => (.error e, [.compile "C", .compile "Rust", .measure "C", .measure "Rust"])
              | .ok none => (.ok st1, [.compile "C", .compile "Rust", .measure "C", .measure "Rust"])
              | .ok (some rT) =>
                (.ok ⟨write_results st1.fs j.resultsFile base cT rT, st1.env⟩,
                 [.compile "C", .compile "Rust", .measure "C", .measure "Rust", .append base])

/-- The benchmark loop of `main` in `run.py` (lines 160-166): strictly
sequential, no `try` around `run_benchmark`, so a propagating exception
aborts the whole run and later units are never processed. -/
def processAllRun : List CJob → PState → Except Exc PState × List Event
  | [], st => (.ok st, [])
  | j :: js, st =>
    match run_benchmark_run j st with
    | (.error e, tr) => (.error e, tr)
    | (.ok st', tr) =>
      let rest := processAllRun js st'
      (rest.1, tr ++ rest.2)

/-- One benchmark unit of `runOptDiff.py` together with its outcome
oracles. -/
structure OJob where
  d : String
  cFile : String
  inputFile : String
  resultsFile : String
  clangO2 : ProcOutcome
  perfO2 : ProcOutcome
  clangO3 : ProcOutcome
  perfO3 : ProcOutcome
  llvm1 : ProcOutcome
  llvm2 : ProcOutcome
  llvm3 : ProcOutcome
  perfLLVM : ProcOutcome

/-- `f"\x7bd\x7d/C/\x7bbase_name\x7d_temp.c"` (`runOptDiff.py` line 102). -/
def tempPath (d base : String) : String := d ++ "/C/" ++ base ++ "_temp.c"

/-- `run_benchmark` of `runOptDiff.py` (lines 81-146): ledger pre-check; read
the input dataset; read and parameterize the reference source, writing it to
the temporary file; then, per variant in the fixed order O2, O3, LLVM
pipeline: compile the variant, then immediately measure it under `perf`. Every
`return` path after the temporary file is created removes it first. -/
def run_benchmark_opt (j : OJob) (fs : FS) : Except Exc FS × List Event :=
  let base := baseNameOf j.cFile
  if alreadyEvaluated fs j.resultsFile base then (.ok fs, [])
  else
    match fs.read? j.inputFile with
    | none => (.error .osError, [])
    | some inputData =>
      let L := tokenCount inputData
      match fs.read? j.cFile with
      | none => (.error .osError, [])
      | some cSrc =>
        let temp := tempPath j.d base
        let fs1 := fs.write temp (String.mk (parameterizeSource cSrc.toList L))
        match compile_with_clang j.clangO2 with
        | .error e => (.error e, [.compile "O2"])
        | .ok false => (.ok (fs1.remove temp), [.compile "O2"])
        | .ok true =>
          match run_benchmark_with_perf (fs1.fileExists j.inputFile) j.perfO2 with
          | .error e => (.error e, [.compile "O2", .measure "O2"])
          | .ok none => (.ok (fs1.remove temp), [.compile "O2", .measure "O2"])
          | .ok (some m2) =>
            match compile_with_clang j.clangO3 with
            | .error e => (.error e, [.compile "O2", .measure "O2", .compile "O3"])
            | .ok false => (.ok (fs1.remove temp), [.compile "O2", .measure "O2", .compile "O3"])
            | .ok true =>
              match run_benchmark_with_perf (fs1.fileExists j.inputFile) j.perfO3 with
              | .error e => (.error e, [.compile "O2", .measure "O2", .compile "O3", .measure "O3"])
              | .ok none => (.ok (fs1.remove temp), [.compile "O2", .measure "O2", .compile "O3", .measure "O3"])
              | .ok (some m3) =>
                match compile_with_llvm_opt j.llvm1 j.llvm2 j.llvm3 with
                | .error e => (.error e, [.compile "O2", .measure "O2", .compile "O3", .measure "O3", .compile "LLVM"])
                | .ok false => (.ok (fs1.remove temp), [.compile "O2", .measure "O2", .compile "O3", .measure "O3", .compile "LLVM"])
                | .ok true =>
                  match run_benchmark_with_perf (fs1.fileExists j.inputFile) j.perfLLVM with
                  | .error e => (.error e, [.compile "O2", .measure "O2", .compile "O3", .measure "O3", .compile "LLVM", .measure "LLVM"])
                  | .ok none => (.ok (fs1.remove temp), [.compile "O2", .measure "O2", .compile "O3", .measure "O3", .compile "LLVM", .measure "LLVM"])
                  | .ok (some ml) =>
                    (.ok (write_results_opt (fs1.remove temp) j.resultsFile base m2.1 m2.2 m3.1 m3.2 ml.1 ml.2),
                     [.compile "O2", .measure "O2", .compile "O3", .measure "O3", .compile "LLVM", .measure "LLVM", .append base])

/-- The benchmark loop of `main` in `runOptDiff.py` (lines 177-184): strictly
sequential, no `try` around `run_benchmark`. -/
def processAllOpt : List OJob → FS → Except Exc FS × List Event
  | [], fs => (.ok fs, [])
  | j :: js, fs =>
    match run_benchmark_opt j fs with
    | (.error e, tr) => (.error e, tr)
    | (.ok fs', tr) =>
      let rest := processAllOpt js fs'
      (rest.1, tr ++ rest.2)

/-! ### Properties of the textual substitution -/

theorem isPrefixOf_eq_append (l1 : List Char) :
    ∀ l2 : List Char, l1.isPrefixOf l2 = true → l2 = l1 ++ List.drop l1.length l2 := by
  induction l1 with
  | nil => intro l2 _; simp
  | cons a t ih =>
    intro l2 h
    cases l2 with
    | nil => simp [List.isPrefixOf] at h
    | cons b s =>
      simp only [List.isPrefixOf, Bool.and_eq_true, beq_iff_eq] at h
      obtain ⟨hab, hts⟩ := h
      subst hab
      simpa [List.length_cons, List.drop_succ_cons] using ih s hts

theorem replaceAllAux_fuel (pat rep : List Char) :
    ∀ f1 f2 s, s.length ≤ f1 → s.length ≤ f2 →
      replaceAllAux pat rep f1 s = replaceAllAux pat rep f2 s := by
  intro f1
  induction f1 with
  | zero =>
    intro f2 s h1 _
    cases s with
    | nil => cases f2 <;> rfl
    | cons c s => simp at h1
  | succ f ih =>
    intro f2 s h1 h2
    cases s with
    | nil => cases f2 <;> rfl
    | cons c s =>
      cases f2 with
      | zero => simp at h2
      | succ f2' =>
        simp only [List.length_cons, Nat.add_le_add_iff_right] at h1 h2
        simp only [replaceAllAux]
        by_cases hc : 0 < pat.length ∧ pat.isPrefixOf (c :: s) = true
        · rw [if_pos hc, if_pos hc]
          congr 1
          exact ih f2' _ (by simp only [List.length_drop]; omega)
            (by simp only [List.length_drop]; omega)
        · rw [if_neg hc, if_neg hc]
          congr 1
          exact ih f2' s h1 h2

theorem replaceAll_cons (pat rep : List Char) (c : Char) (s : List Char) :
    replaceAll pat rep (c :: s) =
      if 0 < pat.length ∧ pat.isPrefixOf (c :: s) = true then
        rep ++ replaceAll pat rep (List.drop (pat.length - 1) s)
      else c :: replaceAll pat rep s := by
  show replaceAllAux pat rep (s.length + 1) (c :: s) = _
  simp only [replaceAllAux]
  by_cases hc : 0 < pat.length ∧ pat.isPrefixOf (c :: s) = true
  · rw [if_pos hc, if_pos hc]
    congr 1
    exact replaceAllAux_fuel pat rep s.length _ _
      (by simp only [List.length_drop]; omega) (le_refl _)
  · rw [if_neg hc, if_neg hc]
    rfl

theorem replaceAll_of_not_contains (pat rep : List Char) :
    ∀ s, containsSub pat s = false → replaceAll pat rep s = s := by
  intro s
  induction s with
  | nil => intro _; rfl
  | cons c s ih =>
    intro h
    simp only [containsSub, Bool.or_eq_false_iff] at h
    rw [replaceAll_cons, if_neg (by simp [h.1]), ih h.2]

theorem firstSplit_eq_append (pat : List Char) :
    ∀ s pre suf, firstSplit pat s = some (pre, suf) → s = pre ++ pat ++ suf := by
  intro s
  induction s with
  | nil =>
    intro pre suf h
    simp only [firstSplit] at h
    by_cases hp : pat.isEmpty
    · rw [if_pos hp, Option.some_inj] at h
      cases h
      simp [List.isEmpty_iff.mp hp]
    · rw [if_neg hp] at h
      cases h
  | cons c s ih =>
    intro pre suf h
    simp only [firstSplit] at h
    by_cases hp : pat.isPrefixOf (c :: s) = true
    · rw [if_pos hp, Option.some_inj] at h
      cases h
      simpa using isPrefixOf_eq_append pat (c :: s) hp
    · rw [if_neg hp, Option.map_eq_some'] at h
      obtain ⟨⟨p, q⟩, hfs, heq⟩ := h
      cases heq
      simpa using ih p q hfs

theorem containsSub_eq_isSome (pat : List Char) :
    ∀ s, containsSub pat s = (firstSplit pat s).isSome := by
  intro s
  induction s with
  | nil => cases hp : pat.isEmpty <;> simp [containsSub, firstSplit, hp]
  | cons c s ih =>
    by_cases hp : pat.isPrefixOf (c :: s) = true
    · simp [containsSub, firstSplit, hp]
    · simp only [containsSub, firstSplit, hp, Bool.false_or, if_neg hp,
        Option.isSome_map]
      simpa using ih

theorem replaceAll_firstSplit (pat rep : List Char) (hpat : 0 < pat.length) :
    ∀ s pre suf, firstSplit pat s = some (pre, suf) →
      replaceAll pat rep s = pre ++ rep ++ replaceAll pat rep suf := by
  intro s
  induction s with
  | nil =>
    intro pre suf h
    simp only [firstSplit] at h
    rw [if_neg (fun hemp => by simp [List.isEmpty_iff.mp hemp] at hpat)] at h
    cases h
  | cons c s ih =>
    intro pre suf h
    simp only [firstSplit] at h
    by_cases hp : pat.isPrefixOf (c :: s) = true
    · rw [if_pos hp, Option.some_inj] at h
      cases h
      rw [replaceAll_cons, if_pos ⟨hpat, hp⟩]
      obtain ⟨k, hk⟩ : ∃ k, pat.length = k + 1 := ⟨pat.length - 1, by omega⟩
      simp [hk, List.drop_succ_cons]
    · rw [if_neg hp, Option.map_eq_some'] at h
      obtain ⟨⟨p, q⟩, hfs, heq⟩ := h
      cases heq
      rw [replaceAll_cons, if_neg (by simp [hp]), ih p q hfs]
      simp

/-- Claim C6: for every reference source text and token count `L`, if the
source does not contain the recognized size-literal statement `int n = 97;`
the text passed on to compilation is exactly the original (no error); if it
does contain it, the text passed on has the (first, and recursively every
later) occurrence of that statement rewritten to `int n = L;`. -/
theorem c6_sizeLiteralRewrite (src : List Char) (L : Nat) :
    (containsSub sizeLit src = false → parameterizeSource src L = src) ∧
    (containsSub sizeLit src = true →
      ∃ pre suf, firstSplit sizeLit src = some (pre, suf) ∧
        src = pre ++ sizeLit ++ suf ∧
        parameterizeSource src L = pre ++ sizeStmt L ++ replaceAll sizeLit (sizeStmt L) suf) := by
  constructor
  · intro h
    exact replaceAll_of_not_contains _ _ _ h
  · intro h
    rw [containsSub_eq_isSome] at h
    obtain ⟨⟨pre, suf⟩, hfs⟩ := Option.isSome_iff_exists.mp h
    exact ⟨pre, suf, hfs, firstSplit_eq_append _ _ _ _ hfs,
      replaceAll_firstSplit _ _ (by decide) _ _ _ hfs⟩

/-- Witness for C6: a source containing the literal is rewritten at its
occurrence; a source without it passes through unchanged. -/
theorem c6_sizeLiteralRewrite_witness :
    containsSub sizeLit ("abc int n = 97; def".toList) = true ∧
    (∃ pre suf, firstSplit sizeLit ("abc int n = 97; def".toList) = some (pre, suf) ∧
      "abc int n = 97; def".toList = pre ++ sizeLit ++ suf ∧
      parameterizeSource ("abc int n = 97; def".toList) 5 =
        pre ++ sizeStmt 5 ++ replaceAll sizeLit (sizeStmt 5) suf) ∧
    containsSub sizeLit ("int x;".toList) = false ∧
    parameterizeSource ("int x;".toList) 5 = "int x;".toList :=
  ⟨by decide, (c6_sizeLiteralRewrite _ 5).2 (by decide), by decide,
    (c6_sizeLiteralRewrite _ 5).1 (by decide)⟩

/-! ### Rounding lemmas for the persisted row -/

theorem roundTo_roundTo (d : Nat) (q : ℚ) : roundTo d (roundTo d q) = roundTo d q := by
  have h10 : ((10 : ℚ) ^ d) ≠ 0 := by positivity
  unfold roundTo
  rw [div_mul_cancel₀ _ h10, round_intCast]

theorem roundTo_pos (d : Nat) (q : ℚ) (h : 1 / 2 ≤ q * (10 : ℚ) ^ d) :
    0 < roundTo d q := by
  have h10 : (0 : ℚ) < 10 ^ d := by positivity
  have h1 : (1 : ℤ) ≤ round (q * (10 : ℚ) ^ d) := by
    rw [round_eq]
    refine Int.le_floor.mpr ?_
    push_cast
    linarith
  have h2 : (0 : ℤ) < round (q * (10 : ℚ) ^ d) := by omega
  exact div_pos (by exact_mod_cast h2) h10

/-- Counterexample for C2: at measured times `c_time = 0.0001`,
`rust_time = 0.0003` the persisted times are `0.000` (not strictly positive)
and the persisted speedup `0.33` (from `:.2f`) differs from the ratio `1/3`
at the 3rd decimal place, so the claim as stated fails; the second conjunct
isolates the precision failure. -/
theorem c2_counterexample :
    (¬ (0 < (writeResultsFields "sum" (1 / 10000) (3 / 10000)).2.1 ∧
        0 < (writeResultsFields "sum" (1 / 10000) (3 / 10000)).2.2.1 ∧
        roundTo 3 (writeResultsFields "sum" (1 / 10000) (3 / 10000)).2.2.2 =
          roundTo 3 ((1 / 10000 : ℚ) / (3 / 10000)))) ∧
    roundTo 3 (writeResultsFields "sum" (1 / 10000) (3 / 10000)).2.2.2 ≠
      roundTo 3 ((1 / 10000 : ℚ) / (3 / 10000)) := by
  constructor
  · intro h
    obtain ⟨h1, -, -⟩ := h
    norm_num [writeResultsFields, roundTo, round_eq] at h1
  · norm_num [writeResultsFields, roundTo, round_eq]

/-- Claim C2, amended: for every recorded row, the two persisted times are the
measured values rounded to 3 decimal places (hence strictly positive whenever
the measured values are at least `0.0005`, as here assumed), and the persisted
speedup field agrees with `reference_time / comparison_time` to 2 (not 3)
decimal places — it is exactly that ratio rounded to 2 places. -/
theorem c2_amended (base : String) (cT rT : ℚ)
    (hc : 1 / 2000 ≤ cT) (hr : 1 / 2000 ≤ rT) :
    0 < (writeResultsFields base cT rT).2.1 ∧
    0 < (writeResultsFields base cT rT).2.2.1 ∧
    roundTo 3 (writeResultsFields base cT rT).2.1 = roundTo 3 cT ∧
    roundTo 3 (writeResultsFields base cT rT).2.2.1 = roundTo 3 rT ∧
    roundTo 2 (writeResultsFields base cT rT).2.2.2 = roundTo 2 (cT / rT) := by
  refine ⟨?_, ?_, ?_, ?_, ?_⟩
  · exact roundTo_pos 3 cT (by norm_num; linarith)
  · exact roundTo_pos 3 rT (by norm_num; linarith)
  · exact roundTo_roundTo 3 cT
  · exact roundTo_roundTo 3 rT
  · exact roundTo_roundTo 2 (cT / rT)

/-- Witness for C2 (amended) at `c_time = 1`, `rust_time = 2`. -/
theorem c2_amended_witness :
    (1 / 2000 : ℚ) ≤ 1 ∧ (1 / 2000 : ℚ) ≤ 2 ∧
    (0 < (writeResultsFields "sum" 1 2).2.1 ∧
     0 < (writeResultsFields "sum" 1 2).2.2.1 ∧
     roundTo 3 (writeResultsFields "sum" 1 2).2.1 = roundTo 3 1 ∧
     roundTo 3 (writeResultsFields "sum" 1 2).2.2.1 = roundTo 3 2 ∧
     roundTo 2 (writeResultsFields "sum" 1 2).2.2.2 = roundTo 2 ((1 : ℚ) / 2)) :=
  ⟨by norm_num, by norm_num, c2_amended "sum" 1 2 (by norm_num) (by norm_num)⟩

/-! ### Claim C7: the perf cycle-count pattern -/

/-- A perf diagnostic stream with a fully separator-grouped cycle count, as
`perf stat -e cycles` prints for any count of a million or more. -/
def c7Stderr : String := "   1,234,567      cycles\n       0.500000 seconds time elapsed\n"

/-- Claim C7 (code-bug evaluation): on a stream containing
`1,234,567 cycles`, the pattern `(\d+,\d+|\d+)\s+cycles` cannot match the
whole grouped number — its leftmost match is the group `234,567` — so the
measurement parses the cycle count as `234567`, not the claimed full number
`1234567` with separators removed. -/
theorem c7_cyclesParseEval :
    searchCycles c7Stderr.toList = some ("234,567".toList) ∧
    (parsePerfStderr c7Stderr.toList).map Prod.snd = some 234567 ∧
    (234567 : Nat) ≠ 1234567 :=
  ⟨by decide, by decide, by decide⟩

/-! ### Claim C1: the ledger pre-check skips all expensive work -/

/-- Claim C1: in both harnesses, a unit whose base name already starts a
ledger line (name followed by a comma) is skipped before any expensive work:
the per-unit run performs no compilation, no measurement, appends no row, and
leaves the state exactly unchanged. -/
theorem c1_ledgerSkip (j : CJob) (st : PState) (oj : OJob) (fs : FS)
    (h1 : alreadyEvaluated st.fs j.resultsFile (baseNameOf j.cFile) = true)
    (h2 : alreadyEvaluated fs oj.resultsFile (baseNameOf oj.cFile) = true) :
    run_benchmark_run j st = (.ok st, []) ∧ run_benchmark_opt oj fs = (.ok fs, []) := by
  constructor
  · unfold run_benchmark_run
    rw [if_pos h1]
  · unfold run_benchmark_opt
    rw [if_pos h2]

/-- A filesystem whose ledger already records the unit `sum`. -/
def c1Fs : FS :=
  ⟨fun p =>
    if p = "results.csv" then some "algorithm,c_time,rust_time,speedup\nsum,1.000,2.000,0.50\n"
    else if p = "input" then some "1 2 3"
    else none,
   fun _ => false⟩

/-- A `run.py` unit for `sum` with all-success oracles. -/
def c1Job : CJob :=
  ⟨"B", "B/C/sum.c", "input", 2, "results.csv",
   .ok "" "", .ok "" "", .ok "" "", 1, .ok "" "", 1⟩

/-- A `runOptDiff.py` unit for `sum` with all-success oracles. -/
def c1OJob : OJob :=
  ⟨"B", "B/C/sum.c", "input", "results.csv",
   .ok "" "", .ok "" "", .ok "" "", .ok "" "", .ok "" "", .ok "" "", .ok "" "", .ok "" ""⟩

/-- Witness for C1: with `sum,` already present in the ledger, both per-unit
runs return immediately with an empty effect trace and unchanged state. -/
theorem c1_ledgerSkip_witness :
    alreadyEvaluated c1Fs "results.csv" (baseNameOf "B/C/sum.c") = true ∧
    run_benchmark_run c1Job ⟨c1Fs, fun _ => none⟩ = (.ok ⟨c1Fs, fun _ => none⟩, []) ∧
    run_benchmark_opt c1OJob c1Fs = (.ok c1Fs, []) :=
  ⟨by decide,
   (c1_ledgerSkip c1Job ⟨c1Fs, fun _ => none⟩ c1OJob c1Fs (by decide) (by decide)).1,
   (c1_ledgerSkip c1Job ⟨c1Fs, fun _ => none⟩ c1OJob c1Fs (by decide) (by decide)).2⟩

/-! ### Claim C4: the measurement boundary and exceptions -/

/-- Counterexample for C4: a launch failure is not caught by the
hardware-counter measurement: with the `perf` invocation raising `OSError`
(missing binary), and likewise with an unopenable input file, the exception
propagates out of `run_benchmark_with_perf` instead of being reported as a
failed measurement. -/
theorem c4_counterexample :
    run_benchmark_with_perf true (ProcOutcome.raise Exc.osError) = Except.error Exc.osError ∧
    run_benchmark_with_perf false (ProcOutcome.ok "" "") = Except.error Exc.osError :=
  ⟨rfl, rfl⟩

/-- Claim C4, amended: the wall-clock measurements of `run.py` catch every
failure (bare `except:`) and always return normally — a populated measurement
or `None`; the hardware-counter measurement of `runOptDiff.py` returns
normally on a non-zero exit status (`CalledProcessError`) and on unparseable
diagnostic output, but a launch failure or unopenable input (`OSError`)
propagates past the boundary — and `OSError` from those two sources is the
only way it can raise. -/
theorem c4_amended :
    (∀ (o : ProcOutcome) (t : ℚ), ∃ v, run_c_benchmark o t = .ok v) ∧
    (∀ (o : ProcOutcome) (t : ℚ), ∃ v, run_rust_benchmark o t = .ok v) ∧
    (run_benchmark_with_perf true (.raise .calledProcessError) = .ok none) ∧
    (∀ (out err : String), parsePerfStderr err.toList = none →
        run_benchmark_with_perf true (.ok out err) = .ok none) ∧
    (∀ (inOk : Bool) (o : ProcOutcome) (e : Exc),
        run_benchmark_with_perf inOk o = .error e →
        e = .osError ∧ (inOk = false ∨ o = .raise .osError)) := by
  refine ⟨?_, ?_, rfl, ?_, ?_⟩
  · intro o t
    cases o with
    | ok a b => exact ⟨some t, rfl⟩
    | raise e => exact ⟨none, rfl⟩
  · intro o t
    cases o with
    | ok a b => exact ⟨some t, rfl⟩
    | raise e => exact ⟨none, rfl⟩
  · intro out err h
    have h' : parsePerfStderr err.data = none := h
    simp [run_benchmark_with_perf, perfBody, h']
  · intro inOk o e h
    cases inOk with
    | false =>
      refine ⟨?_, Or.inl rfl⟩
      symm
      simpa [run_benchmark_with_perf, perfBody] using h
    | true =>
      cases o with
      | ok a b => simp [run_benchmark_with_perf, perfBody] at h
      | raise ex =>
        cases ex with
        | calledProcessError => simp [run_benchmark_with_perf, perfBody] at h
        | osError =>
          refine ⟨?_, Or.inr rfl⟩
          symm
          simpa [run_benchmark_with_perf, perfBody] using h

/-- Witness for C4 (amended): an unparseable stream is reported as a failed
measurement, and a wall-clock launch failure is swallowed by the bare
`except:`. -/
theorem c4_amended_witness :
    parsePerfStderr ("garbage".toList) = none ∧
    run_benchmark_with_perf true (ProcOutcome.ok "" "garbage") = .ok none ∧
    (∃ v, run_c_benchmark (ProcOutcome.raise Exc.osError) 1 = .ok v) :=
  ⟨by decide, c4_amended.2.2.2.1 "" "garbage" (by decide),
   c4_amended.1 (ProcOutcome.raise Exc.osError) 1⟩

/-! ### Claim C3: compile/measure ordering -/

/-- Is this a compilation event? -/
def isCompileEvent : Event → Bool
  | .compile _ => true
  | _ => false

/-- Some compilation event occurs strictly after some measurement event in
the trace — the ordering the claim forbids. -/
def compileAfterMeasure : List Event → Bool
  | [] => false
  | .measure _ :: rest => rest.any isCompileEvent || compileAfterMeasure rest
  | _ :: rest => compileAfterMeasure rest

/-- The full effect order of a `run.py` unit: compile reference (C), compile
comparison (Rust), measure reference, measure comparison, append. -/
def canonRunTrace (base : String) : List Event :=
  [.compile "C", .compile "Rust", .measure "C", .measure "Rust", .append base]

/-- The full effect order of a `runOptDiff.py` unit: per variant in the fixed
order O2, O3, LLVM pipeline, compile then immediately measure; append last. -/
def canonOptTrace (base : String) : List Event :=
  [.compile "O2", .measure "O2", .compile "O3", .measure "O3",
   .compile "LLVM", .measure "LLVM", .append base]

/-- A perf diagnostic stream both patterns parse. -/
def c3PerfOut : ProcOutcome :=
  .ok "" "  100      cycles\n  0.100000 seconds time elapsed\n"

/-- Filesystem for the C3 counterexample: input dataset and reference source
present, no ledger yet. -/
def c3Fs : FS :=
  ⟨fun p =>
    if p = "input" then some "1 2 3"
    else if p = "B/C/sum.c" then some "int x;"
    else none,
   fun _ => false⟩

/-- A fully successful optimization-diff unit. -/
def c3OJob : OJob :=
  ⟨"B", "B/C/sum.c", "input", "results.csv",
   .ok "" "", c3PerfOut, .ok "" "", c3PerfOut, .ok "" "", .ok "" "", .ok "" "", c3PerfOut⟩

/-- Counterexample for C3: a fully successful optimization-diff unit measures
the O2 variant (events 2) before compiling the O3 and LLVM variants (events 3
and 5), so a measurement happens before the compilation of every variant,
contrary to the claim. -/
theorem c3_counterexample :
    (run_benchmark_opt c3OJob c3Fs).2 =
      [.compile "O2", .measure "O2", .compile "O3", .measure "O3",
       .compile "LLVM", .measure "LLVM", .append "sum"] ∧
    compileAfterMeasure (run_benchmark_opt c3OJob c3Fs).2 = true :=
  ⟨by decide, by decide⟩

/-- Claim C3, amended: in the two-way harness the claim holds — every unit's
effect trace is a prefix of compile C, compile Rust, measure C, measure Rust,
append (all compilations precede all measurements, reference first). In the
optimization-diff harness the fixed order instead interleaves per variant:
the trace is a prefix of compile O2, measure O2, compile O3, measure O3,
compile LLVM, measure LLVM, append — each variant is measured immediately
after its own compilation (and the reference O2 variant still comes first),
but before the later variants are compiled. -/
theorem c3_amended :
    (∀ (j : CJob) (st : PState),
        (run_benchmark_run j st).2 <+: canonRunTrace (baseNameOf j.cFile)) ∧
    (∀ (oj : OJob) (fs : FS),
        (run_benchmark_opt oj fs).2 <+: canonOptTrace (baseNameOf oj.cFile)) := by
  constructor
  · intro j st
    unfold run_benchmark_run
    dsimp only
    repeat' split
    all_goals exact ⟨_, rfl⟩
  · intro oj fs
    unfold run_benchmark_opt
    dsimp only
    repeat' split
    all_goals exact ⟨_, rfl⟩

/-! ### Filesystem update lemmas -/

theorem FS.remove_files_self (fs : FS) (p : String) : (fs.remove p).files p = none := by
  simp [FS.remove]

theorem FS.remove_files_ne (fs : FS) (p q : String) (h : q ≠ p) :
    (fs.remove p).files q = fs.files q := by
  simp [FS.remove, h]

theorem FS.write_files_ne (fs : FS) (p q : String) (c : String) (h : q ≠ p) :
    (fs.write p c).files q = fs.files q := by
  simp [FS.write, h]

theorem FS.append_files_ne (fs : FS) (p q : String) (c : String) (h : q ≠ p) :
    (fs.append p c).files q = fs.files q := by
  unfold FS.append
  split <;> simp [FS.write, h]

theorem write_results_files_ne (fs : FS) (rf base : String) (cT rT : ℚ) (q : String)
    (h : q ≠ rf) : (write_results fs rf base cT rT).files q = fs.files q := by
  unfold write_results
  split <;> simp [FS.append_files_ne _ _ _ _ h, FS.write_files_ne _ _ _ _ h]

theorem write_results_opt_files_ne (fs : FS) (rf base : String)
    (t2 : ℚ) (c2 : Nat) (t3 : ℚ) (c3 : Nat) (tl : ℚ) (cl : Nat) (q : String)
    (h : q ≠ rf) : (write_results_opt fs rf base t2 c2 t3 c3 tl cl).files q = fs.files q := by
  unfold write_results_opt
  split <;> simp [FS.append_files_ne _ _ _ _ h, FS.write_files_ne _ _ _ _ h]

/-! ### Claim C10: the temporary source file of the optimization-diff unit -/

/-- Claim C10: for every optimization-diff unit that reaches the
parameterization stage (it is not skipped by the ledger pre-check) and whose
processing returns (rather than propagating an exception), the temporary
rewritten source `<d>/C/<base>_temp.c` is absent from the final filesystem:
every compile-failure return, every measurement-failure return, and the
success path delete it first. The ledger path is assumed distinct from the
temporary path (with a ledger deliberately named `<base>_temp.c` the final
append would re-create that path). -/
theorem c10_tempFileRemoved (oj : OJob) (fs fs' : FS)
    (hne : oj.resultsFile ≠ tempPath oj.d (baseNameOf oj.cFile))
    (hae : alreadyEvaluated fs oj.resultsFile (baseNameOf oj.cFile) = false)
    (hok : (run_benchmark_opt oj fs).1 = .ok fs') :
    fs'.fileExists (tempPath oj.d (baseNameOf oj.cFile)) = false := by
  unfold run_benchmark_opt at hok
  rw [if_neg (by simp [hae])] at hok
  dsimp only at hok
  repeat' split at hok
  all_goals dsimp only at hok
  all_goals try (injection hok with h; subst h)
  all_goals first
    | injection hok
    | (simp [FS.fileExists, FS.remove_files_self]
       done)
    | (have hne2 : tempPath oj.d (baseNameOf oj.cFile) ≠ oj.resultsFile := Ne.symm hne
       simp [FS.fileExists, write_results_opt_files_ne, FS.remove_files_self, hne2])

/-! ### Outcome characterizations of the external-call wrappers -/

theorem FS.fileExists_write_of (fs : FS) (p c q : String) (h : fs.fileExists q = true) :
    (fs.write p c).fileExists q = true := by
  unfold FS.fileExists FS.write at *
  by_cases hq : q = p <;> simp [hq, h]

theorem compile_c_source_error_iff (src : String) (o : ProcOutcome) (e : Exc) :
    compile_c_source src o = .error e ↔ o = .raise .osError ∧ e = .osError := by
  cases o with
  | ok a b => simp [compile_c_source]
  | raise ex => cases ex <;> simp [compile_c_source, eq_comm]

theorem compile_rust_error_iff (env : String → Option String) (b : Bool) (o : ProcOutcome)
    (opt : Nat) (e : Exc) :
    (compile_rust env b o opt).2 = .error e ↔ o = .raise .osError ∧ e = .osError := by
  cases o with
  | ok a b2 => simp [compile_rust]
  | raise ex => cases ex <;> simp [compile_rust, eq_comm]

theorem compile_with_clang_error_iff (o : ProcOutcome) (e : Exc) :
    compile_with_clang o = .error e ↔ o = .raise .osError ∧ e = .osError := by
  cases o with
  | ok a b => simp [compile_with_clang]
  | raise ex => cases ex <;> simp [compile_with_clang, eq_comm]

theorem compile_with_llvm_opt_error_iff (o1 o2 o3 : ProcOutcome) (e : Exc) :
    compile_with_llvm_opt o1 o2 o3 = .error e ↔
      e = .osError ∧
        (o1 = .raise .osError ∨
          (∃ a b, o1 = .ok a b) ∧
            (o2 = .raise .osError ∨ (∃ a b, o2 = .ok a b) ∧ o3 = .raise .osError)) := by
  cases o1 with
  | raise ex => cases ex <;> simp [compile_with_llvm_opt, eq_comm]
  | ok a b =>
    cases o2 with
    | raise ex => cases ex <;> simp [compile_with_llvm_opt, eq_comm]
    | ok a2 b2 =>
      cases o3 with
      | raise ex => cases ex <;> simp [compile_with_llvm_opt, eq_comm]
      | ok a3 b3 => simp [compile_with_llvm_opt]

theorem run_c_benchmark_error_iff (o : ProcOutcome) (t : ℚ) (e : Exc) :
    run_c_benchmark o t = .error e ↔ False := by
  cases o <;> simp [run_c_benchmark, measureBodyWall]

theorem run_rust_benchmark_error_iff (o : ProcOutcome) (t : ℚ) (e : Exc) :
    run_rust_benchmark o t = .error e ↔ False := by
  cases o <;> simp [run_rust_benchmark, measureBodyWall]

theorem rbwp_error_iff (inOk : Bool) (o : ProcOutcome) (e : Exc) :
    run_benchmark_with_perf inOk o = .error e ↔
      e = .osError ∧ (inOk = false ∨ o = .raise .osError) := by
  cases inOk with
  | false => simp [run_benchmark_with_perf, perfBody, eq_comm]
  | true =>
    cases o with
    | ok a b => simp [run_benchmark_with_perf, perfBody]
    | raise ex => cases ex <;> simp [run_benchmark_with_perf, perfBody, eq_comm]

theorem FS.fileExists_eq (fs : FS) (p : String) :
    fs.fileExists p = (fs.read? p).isSome := rfl

theorem FS.fileExists_write (fs : FS) (p c q : String) :
    (fs.write p c).fileExists q = (decide (q = p) || fs.fileExists q) := by
  unfold FS.fileExists FS.write
  by_cases hq : q = p <;> simp [hq]

theorem FS.read?_write_eq_none_iff (fs : FS) (p c q : String) :
    (fs.write p c).read? q = none ↔ ¬(q = p) ∧ fs.read? q = none := by
  unfold FS.read? FS.write
  by_cases hq : q = p <;> simp [hq]

/-! ### Per-unit outcome shapes -/

/-- Every caught per-unit failure of `run.py` (compiler non-zero exit on
either variant, any wall-clock measurement failure) returns normally; only a
compiler launch failure or an unreadable input/reference file can raise. -/
theorem run_benchmark_run_isOk (j : CJob) (st : PState)
    (hg : j.gcc ≠ .raise .osError) (hr : j.rustc ≠ .raise .osError)
    (hin : (st.fs.read? j.inputFile).isSome = true)
    (hcf : (st.fs.read? j.cFile).isSome = true) :
    ∃ st', (run_benchmark_run j st).1 = .ok st' := by
  unfold run_benchmark_run
  dsimp only
  repeat' split
  all_goals first
    | exact ⟨_, rfl⟩
    | (exfalso
       simp_all [compile_c_source_error_iff, compile_rust_error_iff,
         run_c_benchmark_error_iff, run_rust_benchmark_error_iff])

/-- Every caught per-unit failure of `runOptDiff.py` returns normally; only a
toolchain/perf launch failure or an unreadable input/reference file can
raise. -/
theorem run_benchmark_opt_isOk (oj : OJob) (fs : FS)
    (hc2 : oj.clangO2 ≠ .raise .osError) (hp2 : oj.perfO2 ≠ .raise .osError)
    (hc3 : oj.clangO3 ≠ .raise .osError) (hp3 : oj.perfO3 ≠ .raise .osError)
    (hl1 : oj.llvm1 ≠ .raise .osError) (hl2 : oj.llvm2 ≠ .raise .osError)
    (hl3 : oj.llvm3 ≠ .raise .osError) (hpl : oj.perfLLVM ≠ .raise .osError)
    (hin : (fs.read? oj.inputFile).isSome = true)
    (hcf : (fs.read? oj.cFile).isSome = true) :
    ∃ fs', (run_benchmark_opt oj fs).1 = .ok fs' := by
  unfold run_benchmark_opt
  dsimp only
  repeat' split
  all_goals first
    | exact ⟨_, rfl⟩
    | (exfalso
       simp_all [compile_with_clang_error_iff, compile_with_llvm_opt_error_iff,
         rbwp_error_iff, FS.fileExists_write, FS.fileExists_eq,
         FS.read?_write_eq_none_iff])

/-- If a `run.py` unit returns normally, then either it changed nothing (skip
or C-compile failure), or it reached the Rust compilation — mutating only the
environment — without appending, or it recorded a row. -/
theorem run_benchmark_run_ok_cases (j : CJob) (st : PState) (st' : PState)
    (tr : List Event) (hrr : run_benchmark_run j st = (.ok st', tr)) :
    (st' = st ∧ Event.compile "Rust" ∉ tr ∧
       Event.append (baseNameOf j.cFile) ∉ tr) ∨
    (st'.fs = st.fs ∧ st'.env = envSet st.env "RUSTFLAGS" (rustflagsStr j.optLevel) ∧
       Event.compile "Rust" ∈ tr ∧
       Event.append (baseNameOf j.cFile) ∉ tr) ∨
    ((∃ cT rT, st'.fs = write_results st.fs j.resultsFile (baseNameOf j.cFile) cT rT) ∧
       st'.env = envSet st.env "RUSTFLAGS" (rustflagsStr j.optLevel) ∧
       Event.compile "Rust" ∈ tr ∧
       Event.append (baseNameOf j.cFile) ∈ tr) := by
  unfold run_benchmark_run at hrr
  dsimp only at hrr
  repeat' split at hrr
  all_goals have hA := congrArg Prod.fst hrr
  all_goals have hB := congrArg Prod.snd hrr
  all_goals dsimp only at hA hB
  all_goals first
    | exact Except.noConfusion hA
    | (injection hA with h
       subst h
       subst hB
       first
         | (refine Or.inl ⟨rfl, ?_, ?_⟩ <;> simp)
         | (refine Or.inr (Or.inl ⟨rfl, rfl, ?_, ?_⟩) <;> simp)
         | (refine Or.inr (Or.inr ⟨⟨_, _, rfl⟩, rfl, ?_, ?_⟩) <;> simp))

/-- If an `runOptDiff.py` unit returns normally, it either appended its row or
left the ledger path untouched (every failure return only creates and then
removes the temporary file). -/
theorem run_benchmark_opt_ok_cases (oj : OJob) (fs fs' : FS)
    (tr : List Event)
    (hne : oj.resultsFile ≠ tempPath oj.d (baseNameOf oj.cFile))
    (hrr : run_benchmark_opt oj fs = (.ok fs', tr)) :
    Event.append (baseNameOf oj.cFile) ∈ tr ∨
      fs'.files oj.resultsFile = fs.files oj.resultsFile := by
  unfold run_benchmark_opt at hrr
  dsimp only at hrr
  repeat' split at hrr
  all_goals have hA := congrArg Prod.fst hrr
  all_goals have hB := congrArg Prod.snd hrr
  all_goals dsimp only at hA hB
  all_goals first
    | exact Except.noConfusion hA
    | (injection hA with h
       subst h
       subst hB
       first
         | exact Or.inr rfl
         | (refine Or.inl ?_
            simp
            done)
         | (refine Or.inr ?_
            rw [FS.remove_files_ne _ _ _ hne, FS.write_files_ne _ _ _ _ hne]))

/-! ### The sequential main loops -/

theorem processAllRun_cons_ok (j : CJob) (js : List CJob) (st st' : PState)
    (h : (run_benchmark_run j st).1 = .ok st') :
    processAllRun (j :: js) st =
      ((processAllRun js st').1,
        (run_benchmark_run j st).2 ++ (processAllRun js st').2) := by
  rcases hr : run_benchmark_run j st with ⟨r, tr⟩
  rw [hr] at h
  dsimp only at h
  subst h
  simp [processAllRun, hr]

theorem processAllOpt_cons_ok (oj : OJob) (ojs : List OJob) (fs fs' : FS)
    (h : (run_benchmark_opt oj fs).1 = .ok fs') :
    processAllOpt (oj :: ojs) fs =
      ((processAllOpt ojs fs').1,
        (run_benchmark_opt oj fs).2 ++ (processAllOpt ojs fs').2) := by
  rcases hr : run_benchmark_opt oj fs with ⟨r, tr⟩
  rw [hr] at h
  dsimp only at h
  subst h
  simp [processAllOpt, hr]

/-! ### Claim C5: failure isolation at the unit boundary -/

/-- Filesystem for the C5 counterexample: both units' inputs and sources
present, no ledger. -/
def c5CFs : FS :=
  ⟨fun p =>
    if p = "input" then some "1 2 3"
    else if p = "B/C/sum.c" then some "int x;"
    else if p = "B/C/mul.c" then some "int y;"
    else none,
   fun _ => false⟩

/-- An optimization-diff unit whose O2 measurement raises `OSError`
(`perf` binary missing). -/
def c5AbortJob : OJob :=
  ⟨"B", "B/C/sum.c", "input", "results.csv",
   .ok "" "", .raise .osError, .ok "" "", .ok "" "", .ok "" "", .ok "" "", .ok "" "", .ok "" ""⟩

/-- The next unit in the same run (never reached). -/
def c5NextJob : OJob :=
  ⟨"B", "B/C/mul.c", "input", "results.csv",
   .ok "" "", .ok "" "", .ok "" "", .ok "" "", .ok "" "", .ok "" "", .ok "" "", .ok "" ""⟩

/-- Counterexample for C5: a measurement launch failure (`perf` raising
`OSError`) in the optimization-diff harness is not downgraded to a logged
skip: the per-unit run propagates the exception, the whole run aborts, and
the following unit is never processed (its trace is absent — the run's whole
trace is the aborted unit's compile-and-measure prefix). -/
theorem c5_counterexample :
    (run_benchmark_opt c5AbortJob c5CFs).1 = Except.error Exc.osError ∧
    (processAllOpt [c5AbortJob, c5NextJob] c5CFs).2 =
      [Event.compile "O2", Event.measure "O2"] ∧
    Event.append (baseNameOf "B/C/mul.c") ∉
      (processAllOpt [c5AbortJob, c5NextJob] c5CFs).2 :=
  ⟨rfl, by decide, by decide⟩

/-! Success characterizations of the external-call wrappers: a stage reports
success exactly when its underlying invocation completed with exit status 0
(and, for the perf measurement, its diagnostic output parsed). -/

theorem compile_c_source_ok_true_iff (src : String) (o : ProcOutcome) :
    compile_c_source src o = .ok true ↔ ∃ a b, o = .ok a b := by
  cases o with
  | ok a b => simp [compile_c_source]
  | raise ex => cases ex <;> simp [compile_c_source]

theorem compile_rust_ok_true_iff (env : String → Option String) (b : Bool)
    (o : ProcOutcome) (opt : Nat) :
    (compile_rust env b o opt).2 = .ok true ↔ ∃ a b2, o = .ok a b2 := by
  cases o with
  | ok a b2 => simp [compile_rust]
  | raise ex => cases ex <;> simp [compile_rust]

theorem compile_with_clang_ok_true_iff (o : ProcOutcome) :
    compile_with_clang o = .ok true ↔ ∃ a b, o = .ok a b := by
  cases o with
  | ok a b => simp [compile_with_clang]
  | raise ex => cases ex <;> simp [compile_with_clang]

theorem compile_with_llvm_opt_ok_true_iff (o1 o2 o3 : ProcOutcome) :
    compile_with_llvm_opt o1 o2 o3 = .ok true ↔
      (∃ a b, o1 = .ok a b) ∧ (∃ a b, o2 = .ok a b) ∧ (∃ a b, o3 = .ok a b) := by
  cases o1 with
  | raise ex => cases ex <;> simp [compile_with_llvm_opt]
  | ok a b =>
    cases o2 with
    | raise ex => cases ex <;> simp [compile_with_llvm_opt]
    | ok a2 b2 =>
      cases o3 with
      | raise ex => cases ex <;> simp [compile_with_llvm_opt]
      | ok a3 b3 => simp [compile_with_llvm_opt]

theorem run_c_benchmark_ok_some_iff (o : ProcOutcome) (t v : ℚ) :
    run_c_benchmark o t = .ok (some v) ↔ (∃ a b, o = .ok a b) ∧ v = t := by
  cases o with
  | ok a b => simp [run_c_benchmark, measureBodyWall, eq_comm]
  | raise e => simp [run_c_benchmark, measureBodyWall]

theorem run_rust_benchmark_ok_some_iff (o : ProcOutcome) (t v : ℚ) :
    run_rust_benchmark o t = .ok (some v) ↔ (∃ a b, o = .ok a b) ∧ v = t := by
  cases o with
  | ok a b => simp [run_rust_benchmark, measureBodyWall, eq_comm]
  | raise e => simp [run_rust_benchmark, measureBodyWall]

theorem rbwp_ok_some_iff (inOk : Bool) (o : ProcOutcome) (v : ℚ × Nat) :
    run_benchmark_with_perf inOk o = .ok (some v) ↔
      inOk = true ∧ ∃ a b, o = .ok a b ∧ parsePerfStderr b.toList = some v := by
  cases inOk with
  | false => simp [run_benchmark_with_perf, perfBody]
  | true =>
    cases o with
    | ok a b =>
      simp only [run_benchmark_with_perf, perfBody]
      simp only [Bool.true_eq_false, if_false, Except.ok.injEq, true_and,
        ProcOutcome.ok.injEq]
      constructor
      · intro h
        exact ⟨a, b, ⟨rfl, rfl⟩, h⟩
      · rintro ⟨a2, b2, ⟨ha, hb⟩, h⟩
        subst ha
        subst hb
        exact h
    | raise ex => cases ex <;> simp [run_benchmark_with_perf, perfBody]

/-- A `run.py` unit one of whose stages fails with a caught failure (compiler
non-zero exit, or any wall-clock measurement exception — the bare `except:`
catches them all) never appends its row: the row is written only on the
all-success path. -/
theorem run_benchmark_run_caught_no_append (j : CJob) (st st' : PState)
    (tr : List Event) (hrr : run_benchmark_run j st = (.ok st', tr))
    (hfail : j.gcc = .raise .calledProcessError ∨
      j.rustc = .raise .calledProcessError ∨
      (∃ e, j.cRun = .raise e) ∨ (∃ e, j.rRun = .raise e)) :
    Event.append (baseNameOf j.cFile) ∉ tr := by
  intro hmem
  unfold run_benchmark_run at hrr
  dsimp only at hrr
  repeat' split at hrr
  all_goals have hB := congrArg Prod.snd hrr
  all_goals dsimp only at hB
  all_goals rw [← hB] at hmem
  all_goals first
    | (simp at hmem
       done)
    | (rcases hfail with hf | hf | ⟨e, hf⟩ | ⟨e, hf⟩ <;>
        simp_all [compile_c_source_ok_true_iff, compile_rust_ok_true_iff,
          run_c_benchmark_ok_some_iff, run_rust_benchmark_ok_some_iff])

/-- A `runOptDiff.py` unit one of whose stages fails with a caught failure
(compiler non-zero exit anywhere, perf non-zero exit, or unparseable perf
output) never appends its row. -/
theorem run_benchmark_opt_caught_no_append (oj : OJob) (fs fs' : FS)
    (tr : List Event) (hrr : run_benchmark_opt oj fs = (.ok fs', tr))
    (hfail : oj.clangO2 = .raise .calledProcessError ∨
      oj.perfO2 = .raise .calledProcessError ∨
      (∃ a b, oj.perfO2 = .ok a b ∧ parsePerfStderr b.toList = none) ∨
      oj.clangO3 = .raise .calledProcessError ∨
      oj.perfO3 = .raise .calledProcessError ∨
      (∃ a b, oj.perfO3 = .ok a b ∧ parsePerfStderr b.toList = none) ∨
      oj.llvm1 = .raise .calledProcessError ∨
      oj.llvm2 = .raise .calledProcessError ∨
      oj.llvm3 = .raise .calledProcessError ∨
      oj.perfLLVM = .raise .calledProcessError ∨
      (∃ a b, oj.perfLLVM = .ok a b ∧ parsePerfStderr b.toList = none)) :
    Event.append (baseNameOf oj.cFile) ∉ tr := by
  intro hmem
  unfold run_benchmark_opt at hrr
  dsimp only at hrr
  repeat' split at hrr
  all_goals have hB := congrArg Prod.snd hrr
  all_goals dsimp only at hB
  all_goals rw [← hB] at hmem
  all_goals first
    | (simp at hmem
       done)
    | (rcases hfail with hf | hf | ⟨a, b, hf, hfn⟩ | hf | hf | ⟨a, b, hf, hfn⟩ |
        hf | hf | hf | hf | ⟨a, b, hf, hfn⟩ <;>
        first
          | (simp_all [compile_with_clang_ok_true_iff,
              compile_with_llvm_opt_ok_true_iff, rbwp_ok_some_iff]
             done)
          | (obtain ⟨-, a2, b2, hab, hsome⟩ :=
               (rbwp_ok_some_iff _ oj.perfO2 _).mp (by assumption)
             rw [hf] at hab
             injection hab with h1 h2
             subst h2
             rw [hfn] at hsome
             exact Option.noConfusion hsome)
          | (obtain ⟨-, a2, b2, hab, hsome⟩ :=
               (rbwp_ok_some_iff _ oj.perfO3 _).mp (by assumption)
             rw [hf] at hab
             injection hab with h1 h2
             subst h2
             rw [hfn] at hsome
             exact Option.noConfusion hsome)
          | (obtain ⟨-, a2, b2, hab, hsome⟩ :=
               (rbwp_ok_some_iff _ oj.perfLLVM _).mp (by assumption)
             rw [hf] at hab
             injection hab with h1 h2
             subst h2
             rw [hfn] at hsome
             exact Option.noConfusion hsome))

/-- Claim C5, amended: for every unit that fails at some stage with a caught
failure — compiler non-zero exit of any variant, measurement non-zero exit,
unparseable perf output, or any wall-clock measurement error — and whose
oracles raise no `OSError` (the launch failures the code does not catch) and
whose input and reference source are readable, the per-unit run returns
normally, appends no row for that unit (no append effect, ledger file content
unchanged), and the main loop continues with the remaining units. (An
`OSError` launch failure instead aborts the whole run, see the
counterexample.) -/
theorem c5_amended :
    (∀ (j : CJob) (js : List CJob) (st : PState),
        j.gcc ≠ .raise .osError → j.rustc ≠ .raise .osError →
        (st.fs.read? j.inputFile).isSome = true →
        (st.fs.read? j.cFile).isSome = true →
        (j.gcc = .raise .calledProcessError ∨
          j.rustc = .raise .calledProcessError ∨
          (∃ e, j.cRun = .raise e) ∨ (∃ e, j.rRun = .raise e)) →
        ∃ st', (run_benchmark_run j st).1 = .ok st' ∧
          Event.append (baseNameOf j.cFile) ∉ (run_benchmark_run j st).2 ∧
          st'.fs.read? j.resultsFile = st.fs.read? j.resultsFile ∧
          processAllRun (j :: js) st =
            ((processAllRun js st').1,
              (run_benchmark_run j st).2 ++ (processAllRun js st').2)) ∧
    (∀ (oj : OJob) (ojs : List OJob) (fs : FS),
        oj.clangO2 ≠ .raise .osError → oj.perfO2 ≠ .raise .osError →
        oj.clangO3 ≠ .raise .osError → oj.perfO3 ≠ .raise .osError →
        oj.llvm1 ≠ .raise .osError → oj.llvm2 ≠ .raise .osError →
        oj.llvm3 ≠ .raise .osError → oj.perfLLVM ≠ .raise .osError →
        (fs.read? oj.inputFile).isSome = true →
        (fs.read? oj.cFile).isSome = true →
        oj.resultsFile ≠ tempPath oj.d (baseNameOf oj.cFile) →
        (oj.clangO2 = .raise .calledProcessError ∨
          oj.perfO2 = .raise .calledProcessError ∨
          (∃ a b, oj.perfO2 = .ok a b ∧ parsePerfStderr b.toList = none) ∨
          oj.clangO3 = .raise .calledProcessError ∨
          oj.perfO3 = .raise .calledProcessError ∨
          (∃ a b, oj.perfO3 = .ok a b ∧ parsePerfStderr b.toList = none) ∨
          oj.llvm1 = .raise .calledProcessError ∨
          oj.llvm2 = .raise .calledProcessError ∨
          oj.llvm3 = .raise .calledProcessError ∨
          oj.perfLLVM = .raise .calledProcessError ∨
          (∃ a b, oj.perfLLVM = .ok a b ∧ parsePerfStderr b.toList = none)) →
        ∃ fs', (run_benchmark_opt oj fs).1 = .ok fs' ∧
          Event.append (baseNameOf oj.cFile) ∉ (run_benchmark_opt oj fs).2 ∧
          fs'.read? oj.resultsFile = fs.read? oj.resultsFile ∧
          processAllOpt (oj :: ojs) fs =
            ((processAllOpt ojs fs').1,
              (run_benchmark_opt oj fs).2 ++ (processAllOpt ojs fs').2)) := by
  constructor
  · intro j js st hg hr hin hcf hfail
    obtain ⟨st', hok⟩ := run_benchmark_run_isOk j st hg hr hin hcf
    have hcont := processAllRun_cons_ok j js st st' hok
    obtain ⟨r, tr, hrr⟩ : ∃ r tr, run_benchmark_run j st = (r, tr) := ⟨_, _, rfl⟩
    rw [hrr] at hok hcont ⊢
    dsimp only at hok hcont ⊢
    subst hok
    have hnoapp := run_benchmark_run_caught_no_append j st st' tr hrr hfail
    refine ⟨st', rfl, hnoapp, ?_, hcont⟩
    rcases run_benchmark_run_ok_cases j st st' tr hrr with
      ⟨h1, -, -⟩ | ⟨h1, -, -, -⟩ | ⟨-, -, -, h3⟩
    · rw [h1]
    · unfold FS.read?
      rw [h1]
    · exact absurd h3 hnoapp
  · intro oj ojs fs hc2 hp2 hc3 hp3 hl1 hl2 hl3 hpl hin hcf hne hfail
    obtain ⟨fs', hok⟩ :=
      run_benchmark_opt_isOk oj fs hc2 hp2 hc3 hp3 hl1 hl2 hl3 hpl hin hcf
    have hcont := processAllOpt_cons_ok oj ojs fs fs' hok
    obtain ⟨r, tr, hrr⟩ : ∃ r tr, run_benchmark_opt oj fs = (r, tr) := ⟨_, _, rfl⟩
    rw [hrr] at hok hcont ⊢
    dsimp only at hok hcont ⊢
    subst hok
    have hnoapp := run_benchmark_opt_caught_no_append oj fs fs' tr hrr hfail
    refine ⟨fs', rfl, hnoapp, ?_, hcont⟩
    rcases run_benchmark_opt_ok_cases oj fs fs' tr hne hrr with h | h
    · exact absurd h hnoapp
    · exact h

/-- A `run.py` unit whose C compilation exits non-zero
(`CalledProcessError`). -/
def c5Job : CJob :=
  ⟨"B", "B/C/sum.c", "input", 2, "results.csv",
   .raise .calledProcessError, .ok "" "", .ok "" "", 1, .ok "" "", 1⟩

/-- The next `run.py` unit of the same run. -/
def c5Job2 : CJob :=
  ⟨"B", "B/C/mul.c", "input", 2, "results.csv",
   .ok "" "", .ok "" "", .ok "" "", 1, .ok "" "", 1⟩

/-- Filesystem for the C5 witness: sources, Rust counterparts and input
present. -/
def c5St : PState :=
  ⟨⟨fun p =>
      if p = "input" then some "1 2 3"
      else if p = "B/C/sum.c" then some "int x;"
      else if p = "B/C/mul.c" then some "int y;"
      else if p = "B/Rust/sum.rs" then some "fn x;"
      else if p = "B/Rust/mul.rs" then some "fn y;"
      else none,
     fun _ => false⟩,
   fun _ => none⟩

/-- An optimization-diff unit whose O2 compilation exits non-zero
(`CalledProcessError`). -/
def c5OJobW : OJob :=
  ⟨"B", "B/C/sum.c", "input", "results.csv",
   .raise .calledProcessError, .ok "" "", .ok "" "", .ok "" "", .ok "" "", .ok "" "",
   .ok "" "", .ok "" ""⟩

/-- Witness for C5 (amended): in each harness, a unit whose first compilation
fails with a non-zero exit returns normally, appends no row, leaves the
ledger untouched, and the loop continues with the remaining units. -/
theorem c5_amended_witness :
    c5Job.gcc = ProcOutcome.raise Exc.calledProcessError ∧
    (c5St.fs.read? c5Job.inputFile).isSome = true ∧
    (∃ st', (run_benchmark_run c5Job c5St).1 = .ok st' ∧
      Event.append (baseNameOf c5Job.cFile) ∉ (run_benchmark_run c5Job c5St).2 ∧
      st'.fs.read? c5Job.resultsFile = c5St.fs.read? c5Job.resultsFile ∧
      processAllRun [c5Job, c5Job2] c5St =
        ((processAllRun [c5Job2] st').1,
          (run_benchmark_run c5Job c5St).2 ++ (processAllRun [c5Job2] st').2)) ∧
    c5OJobW.clangO2 = ProcOutcome.raise Exc.calledProcessError ∧
    (∃ fs', (run_benchmark_opt c5OJobW c5CFs).1 = .ok fs' ∧
      Event.append (baseNameOf c5OJobW.cFile) ∉ (run_benchmark_opt c5OJobW c5CFs).2 ∧
      fs'.read? c5OJobW.resultsFile = c5CFs.read? c5OJobW.resultsFile ∧
      processAllOpt [c5OJobW] c5CFs =
        ((processAllOpt [] fs').1,
          (run_benchmark_opt c5OJobW c5CFs).2 ++ (processAllOpt [] fs').2)) :=
  ⟨rfl, by decide,
   c5_amended.1 c5Job [c5Job2] c5St (by decide) (by decide) (by decide) (by decide)
     (Or.inl rfl),
   rfl,
   c5_amended.2 c5OJobW [] c5CFs (by decide) (by decide) (by decide) (by decide)
     (by decide) (by decide) (by decide) (by decide) (by decide) (by decide)
     (by decide) (Or.inl rfl)⟩

/-! ### Claim C8: a missing input dataset -/

theorem run_benchmark_run_inputMissing (j : CJob) (st : PState)
    (hmiss : st.fs.read? j.inputFile = none) :
    run_benchmark_run j st = (.ok st, []) ∨
      run_benchmark_run j st = (.error .osError, []) := by
  unfold run_benchmark_run
  dsimp only
  repeat' split
  all_goals first
    | exact Or.inl rfl
    | exact Or.inr rfl
    | simp_all

theorem run_benchmark_opt_inputMissing (oj : OJob) (fs : FS)
    (hmiss : fs.read? oj.inputFile = none) :
    run_benchmark_opt oj fs = (.ok fs, []) ∨
      run_benchmark_opt oj fs = (.error .osError, []) := by
  unfold run_benchmark_opt
  dsimp only
  repeat' split
  all_goals first
    | exact Or.inl rfl
    | exact Or.inr rfl
    | simp_all

/-- Claim C8, amended: when the configured input dataset path does not exist,
no unit of the run is ever compiled, measured, or recorded (the run's whole
effect trace is empty, so no ledger row is written), but the abort is lazy
and per-unit rather than immediate: each unit is skipped by its cheap
pre-checks until the first unit that reaches input provisioning raises the
uncaught file error and kills the run; a run all of whose units are skipped
terminates normally instead of aborting. -/
theorem c8_amended :
    (∀ (js : List CJob) (st : PState) (p : String),
        st.fs.read? p = none → (∀ j ∈ js, j.inputFile = p) →
        (processAllRun js st).2 = [] ∧
          ((processAllRun js st).1 = .ok st ∨
            (processAllRun js st).1 = .error .osError)) ∧
    (∀ (ojs : List OJob) (fs : FS) (p : String),
        fs.read? p = none → (∀ oj ∈ ojs, oj.inputFile = p) →
        (processAllOpt ojs fs).2 = [] ∧
          ((processAllOpt ojs fs).1 = .ok fs ∨
            (processAllOpt ojs fs).1 = .error .osError)) := by
  constructor
  · intro js
    induction js with
    | nil => exact fun st p hmiss hall => ⟨rfl, Or.inl rfl⟩
    | cons j js ih =>
      intro st p hmiss hall
      have hj : j.inputFile = p := hall j (List.mem_cons_self j js)
      rcases run_benchmark_run_inputMissing j st (by rw [hj]; exact hmiss) with h | h
      · have hrest := ih st p hmiss fun x hx => hall x (List.mem_cons_of_mem _ hx)
        refine ⟨by simp [processAllRun, h, hrest.1], ?_⟩
        rcases hrest.2 with h2 | h2
        · exact Or.inl (by simp [processAllRun, h, h2])
        · exact Or.inr (by simp [processAllRun, h, h2])
      · exact ⟨by simp [processAllRun, h], Or.inr (by simp [processAllRun, h])⟩
  · intro ojs
    induction ojs with
    | nil => exact fun fs p hmiss hall => ⟨rfl, Or.inl rfl⟩
    | cons oj ojs ih =>
      intro fs p hmiss hall
      have hj : oj.inputFile = p := hall oj (List.mem_cons_self oj ojs)
      rcases run_benchmark_opt_inputMissing oj fs (by rw [hj]; exact hmiss) with h | h
      · have hrest := ih fs p hmiss fun x hx => hall x (List.mem_cons_of_mem _ hx)
        refine ⟨by simp [processAllOpt, h, hrest.1], ?_⟩
        rcases hrest.2 with h2 | h2
        · exact Or.inl (by simp [processAllOpt, h, h2])
        · exact Or.inr (by simp [processAllOpt, h, h2])
      · exact ⟨by simp [processAllOpt, h], Or.inr (by simp [processAllOpt, h])⟩

/-- Does the run abort with a propagating exception? -/
def exceptIsError {α : Type} : Except Exc α → Bool
  | .error _ => true
  | .ok _ => false

/-- Filesystem for the C8 counterexample: the ledger already records `sum`,
and the input dataset does not exist. -/
def c8Fs : FS :=
  ⟨fun p =>
    if p = "results.csv" then
      some "algorithm,c_time,rust_time,speedup\nsum,1.000,2.000,0.50\n"
    else none,
   fun _ => false⟩

/-- The single unit of the C8 counterexample run. -/
def c8Job : CJob :=
  ⟨"B", "B/C/sum.c", "input", 2, "results.csv",
   .ok "" "", .ok "" "", .ok "" "", 1, .ok "" "", 1⟩

/-- Counterexample for C8: with the input dataset path missing, a run whose
only unit is already recorded in the ledger completes normally — it does not
abort at all, let alone immediately, contrary to the claim that every such
run is process-fatal. -/
theorem c8_counterexample :
    c8Fs.fileExists "input" = false ∧
    exceptIsError (processAllRun [c8Job] ⟨c8Fs, fun _ => none⟩).1 = false :=
  ⟨by decide, by decide⟩

/-- A second C8 unit that does reach input provisioning (its Rust counterpart
directory exists and it is not in the ledger). -/
def c8Job2 : CJob :=
  ⟨"B", "B/C/mul.c", "input", 2, "results.csv",
   .ok "" "", .ok "" "", .ok "" "", 1, .ok "" "", 1⟩

/-- Filesystem for the C8 witness: ledger records `sum`, the Rust counterpart
directory of `mul` exists, the input does not. -/
def c8Fs2 : FS :=
  ⟨fun p =>
    if p = "results.csv" then
      some "algorithm,c_time,rust_time,speedup\nsum,1.000,2.000,0.50\n"
    else none,
   fun p => p = "B/Rust/mul"⟩

/-- Witness for C8 (amended): with the input missing, a run with a skipped
unit and an eligible unit produces an empty effect trace and either finishes
with the state unchanged or aborts with the uncaught file error. -/
theorem c8_amended_witness :
    (⟨c8Fs2, fun _ => none⟩ : PState).fs.read? "input" = none ∧
    (∀ j ∈ [c8Job, c8Job2], j.inputFile = "input") ∧
    ((processAllRun [c8Job, c8Job2] ⟨c8Fs2, fun _ => none⟩).2 = [] ∧
      ((processAllRun [c8Job, c8Job2] ⟨c8Fs2, fun _ => none⟩).1 =
          .ok ⟨c8Fs2, fun _ => none⟩ ∨
        (processAllRun [c8Job, c8Job2] ⟨c8Fs2, fun _ => none⟩).1 =
          .error .osError)) :=
  ⟨by decide, by decide,
   c8_amended.1 [c8Job, c8Job2] ⟨c8Fs2, fun _ => none⟩ "input" (by decide) (by decide)⟩

/-! ### Claim C9: the RUSTFLAGS environment mutation -/

theorem run_benchmark_run_env (j : CJob) (st st' : PState) (tr : List Event)
    (hrr : run_benchmark_run j st = (.ok st', tr)) :
    (Event.compile "Rust" ∈ tr →
        st'.env "RUSTFLAGS" = some (rustflagsStr j.optLevel)) ∧
    (st'.env "RUSTFLAGS" = st.env "RUSTFLAGS" ∨
        st'.env "RUSTFLAGS" = some (rustflagsStr j.optLevel)) := by
  rcases run_benchmark_run_ok_cases j st st' tr hrr with
    ⟨h1, h2, -⟩ | ⟨-, henv, -, -⟩ | ⟨-, henv, -, -⟩
  · exact ⟨fun hm => absurd hm h2, Or.inl (by rw [h1])⟩
  · exact ⟨fun _ => by rw [henv]; simp [envSet],
      Or.inr (by rw [henv]; simp [envSet])⟩
  · exact ⟨fun _ => by rw [henv]; simp [envSet],
      Or.inr (by rw [henv]; simp [envSet])⟩

/-- Claim C9: every invocation of the Rust compilation step sets the
process-wide `RUSTFLAGS` variable to `-A warnings -C opt-level=<level>`
before invoking the toolchain — including when the compilation fails or
raises — and nothing ever unsets it: after any unit that reached the Rust
compilation, and from then on across the remaining units of the run (all
sharing the configured level), the ambient environment carries that value;
units that never reach the Rust compilation leave the variable untouched. -/
theorem c9_rustflagsPersist :
    (∀ (env : String → Option String) (b : Bool) (o : ProcOutcome) (opt : Nat),
        (compile_rust env b o opt).1 "RUSTFLAGS" = some (rustflagsStr opt)) ∧
    (∀ (j : CJob) (st st' : PState) (tr : List Event),
        run_benchmark_run j st = (.ok st', tr) →
        (Event.compile "Rust" ∈ tr →
            st'.env "RUSTFLAGS" = some (rustflagsStr j.optLevel)) ∧
        (st'.env "RUSTFLAGS" = st.env "RUSTFLAGS" ∨
            st'.env "RUSTFLAGS" = some (rustflagsStr j.optLevel))) ∧
    (∀ (js : List CJob) (st st' : PState) (opt : Nat),
        (∀ j ∈ js, j.optLevel = opt) →
        (processAllRun js st).1 = .ok st' →
        (Event.compile "Rust" ∈ (processAllRun js st).2 →
            st'.env "RUSTFLAGS" = some (rustflagsStr opt)) ∧
        (st'.env "RUSTFLAGS" = st.env "RUSTFLAGS" ∨
            st'.env "RUSTFLAGS" = some (rustflagsStr opt))) := by
  refine ⟨?_, run_benchmark_run_env, ?_⟩
  · intro env b o opt
    simp [compile_rust, envSet]
  · intro js
    induction js with
    | nil =>
      intro st st' opt hopt hok
      have h1 : Except.ok (ε := Exc) st = .ok st' := hok
      injection h1 with h1
      subst h1
      exact ⟨fun hm => absurd hm (by simp [processAllRun]), Or.inl rfl⟩
    | cons j js ih =>
      intro st st' opt hopt hok
      rcases hrr : run_benchmark_run j st with ⟨r, tr⟩
      cases r with
      | error e => simp [processAllRun, hrr] at hok
      | ok stm =>
        have hcont := processAllRun_cons_ok j js st stm (by rw [hrr])
        rw [hcont] at hok
        dsimp only at hok
        obtain ⟨hmem, hdisj⟩ :=
          ih stm st' opt (fun x hx => hopt x (List.mem_cons_of_mem _ hx)) hok
        obtain ⟨humem, hudisj⟩ := run_benchmark_run_env j st stm tr hrr
        constructor
        · intro hm
          rw [hcont, hrr] at hm
          dsimp only at hm
          rcases List.mem_append.mp hm with hin1 | hin2
          · have hstm := humem hin1
            rw [hopt j (List.mem_cons_self j js)] at hstm
            rcases hdisj with h2 | h2
            · rw [h2, hstm]
            · exact h2
          · exact hmem hin2
        · rcases hdisj with h2 | h2
          · rcases hudisj with h3 | h3
            · exact Or.inl (h2.trans h3)
            · refine Or.inr ?_
              rw [h2, h3, hopt j (List.mem_cons_self j js)]
          · exact Or.inr h2

/-- Filesystem and state for the C9 witness: input, reference source and
Rust counterpart present, empty environment. -/
def c9St : PState :=
  ⟨⟨fun p =>
      if p = "input" then some "1 2 3"
      else if p = "B/C/sum.c" then some "int x;"
      else if p = "B/Rust/sum.rs" then some "fn x;"
      else none,
     fun _ => false⟩,
   fun _ => none⟩

/-- A unit that reaches the Rust compilation, which then exits non-zero. -/
def c9Job : CJob :=
  ⟨"B", "B/C/sum.c", "input", 2, "results.csv",
   .ok "" "", .raise .calledProcessError, .ok "" "", 1, .ok "" "", 1⟩

/-- The state after that run: filesystem unchanged, `RUSTFLAGS` set. -/
def c9St' : PState :=
  ⟨c9St.fs, envSet c9St.env "RUSTFLAGS" (rustflagsStr 2)⟩

/-- Witness for C9: after a run whose single unit reached the failing Rust
compilation, the ambient environment still carries the flags. -/
theorem c9_rustflagsPersist_witness :
    (∀ j ∈ [c9Job], j.optLevel = 2) ∧
    (processAllRun [c9Job] c9St).1 = .ok c9St' ∧
    Event.compile "Rust" ∈ (processAllRun [c9Job] c9St).2 ∧
    c9St'.env "RUSTFLAGS" = some (rustflagsStr 2) :=
  ⟨by decide, rfl, by decide,
   (c9_rustflagsPersist.2.2 [c9Job] c9St c9St' 2 (by decide) rfl).1 (by decide)⟩

/-- Filesystem for the C10 witness. -/
def c10Fs : FS :=
  ⟨fun p =>
    if p = "input" then some "1 2 3"
    else if p = "B/C/sum.c" then some "int x;"
    else none,
   fun _ => false⟩

/-- An optimization-diff unit whose O2 compilation exits non-zero, exercising
a compile-failure return path. -/
def c10OJob : OJob :=
  ⟨"B", "B/C/sum.c", "input", "results.csv",
   .raise .calledProcessError, .ok "" "", .ok "" "", .ok "" "", .ok "" "", .ok "" "",
   .ok "" "", .ok "" ""⟩

/-- The final filesystem of that unit: the temporary file was written and
then removed on the compile-failure return. -/
def c10Fs' : FS :=
  (c10Fs.write (tempPath "B" (baseNameOf "B/C/sum.c"))
    (String.mk (parameterizeSource ("int x;".toList) (tokenCount "1 2 3")))).remove
    (tempPath "B" (baseNameOf "B/C/sum.c"))

/-- Witness for C10: on a compile-failure return the temporary file is
absent from the final filesystem. -/
theorem c10_tempFileRemoved_witness :
    ("results.csv" : String) ≠ tempPath "B" (baseNameOf "B/C/sum.c") ∧
    alreadyEvaluated c10Fs "results.csv" (baseNameOf "B/C/sum.c") = false ∧
    (run_benchmark_opt c10OJob c10Fs).1 = .ok c10Fs' ∧
    c10Fs'.fileExists (tempPath "B" (baseNameOf "B/C/sum.c")) = false :=
  ⟨by decide, by decide, rfl,
   c10_tempFileRemoved c10OJob c10Fs c10Fs' (by decide) (by decide) rfl⟩
